import Mathlib

/-!
Shallow embedding of the transfer-orchestration core of `vscode-sftp`
(`src/commands/fileCommandUploadFile.ts`): config resolution (profiles,
`$ENV` agent indirection, validator), ignore resolution (pattern list,
ignore-file cache), and the File Service scheduler bookkeeping
(`createTransferScheduler`, `run`, `isTransferring`, `cancelTransferTasks`).

JavaScript objects are modelled as association lists from field names to
values (`Obj`); lookups see the first binding, assignment replaces the
binding, matching JS object semantics where keys are unique.  Filesystem
access and external libraries (node `path`, `upath`, the `ignore` matcher,
`process.env`) are parameters gathered in `Externals`; filesystem touches
are recorded as an explicit event trace so caching claims are statable.
-/

/-- A field value of a configuration object: a string or a string list. -/
inductive CVal where
  | str (s : String)
  | strList (l : List String)
deriving DecidableEq, Repr

/-- A JavaScript object, as an association list of fields. -/
abbrev Obj := List (String × CVal)

/-- Field lookup: the first binding for the key, if any. -/
def Obj.get (o : Obj) (k : String) : Option CVal :=
  (o.find? (fun q => q.1 == k)).map (fun q => q.2)

/-- Field assignment (`o[k] = v`): the new binding shadows any old one. -/
def Obj.set (o : Obj) (k : String) (v : CVal) : Obj :=
  (k, v) :: o.filter (fun q => q.1 != k)

/-- `Object.assign(target, src)`: assign every field of `src` onto `target`,
in order. -/
def objAssign (target src : Obj) : Obj :=
  src.foldl (fun acc q => Obj.set acc q.1 q.2) target

/-- Read a string-valued field. -/
def cfgStr (config : Obj) (k : String) : Option String :=
  match Obj.get config k with
  | some (CVal.str s) => some s
  | _ => none

/-- `config.ignore && config.ignore.length ? config.ignore : []`. -/
def cfgIgnoreList (config : Obj) : List String :=
  match Obj.get config "ignore" with
  | some (CVal.strList l) => if l.length != 0 then l else []
  | _ => []

/-- The process-wide ignore-file cache (`app.ignoreFileCache`), a map from
file path to cached line list. -/
abbrev Cache := List (String × List String)

/-- `cache.has(k)`. -/
def Cache.has (c : Cache) (k : String) : Bool :=
  c.any (fun q => q.1 == k)

/-- `cache.get(k)`. -/
def Cache.get (c : Cache) (k : String) : Option (List String) :=
  (c.find? (fun q => q.1 == k)).map (fun q => q.2)

/-- `cache.set(k, v)`: replaces any existing entry for the key. -/
def Cache.set (c : Cache) (k : String) (v : List String) : Cache :=
  (k, v) :: c.filter (fun q => q.1 != k)

/-- One observable filesystem touch: an existence check (`fs.existsSync`)
or a file read (`fs.readFileSync`). -/
inductive FsEvent where
  | statCheck (p : String)
  | readFile (p : String)
deriving DecidableEq, Repr

/-- The configuration-resolution error taxonomy (the spec's `ConfigError`);
`render` recovers the exact message thrown by the source. -/
inductive CfgError where
  | envVarNotFound (name : String)
  | unknownProfile (name : String)
  | ignoreFileNotFound (path : String)
  | validationFail (message : String) (hint : Bool)
deriving DecidableEq, Repr

/-- The exact `Error` message the source throws for each error. -/
def CfgError.render : CfgError → String
  | CfgError.envVarNotFound n => "Environment variable \"" ++ n ++ "\" not found"
  | CfgError.unknownProfile p =>
      "Unkown Profile \"" ++ p ++ "\"." ++ " Please check your profile setting." ++
        " You can set a profile by running command `SFTP: Set Profile`."
  | CfgError.ignoreFileNotFound f =>
      "File " ++ f ++ " not found. Check your config of \"ignoreFile\""
  | CfgError.validationFail m hint =>
      "Config validation fail: " ++ m ++ "." ++
        (if hint then " Maybe you should set a profile first." else "")

/-- The external collaborators: environment, filesystem, path libraries and
the ignore-pattern matching engine (`Ignore.from(list).ignores`). -/
structure Externals where
  env : String → Option String
  fsExists : String → Bool
  fsRead : String → String
  pathNormalize : String → String
  pathRelative : String → String → String
  upathRelative : String → String → String
  ignores : List String → String → Bool

/-- The prefix test (`s.indexOf(pre) === 0`, equivalently
`s.startsWith(pre)`), computed on the character lists. -/
def strStartsWith (s pre : String) : Bool :=
  List.isPrefixOf pre.data s.data

/-- `s.slice(1)`: the string without its first character, computed on the
character list. -/
def strSlice1 (s : String) : String :=
  String.mk (s.data.drop 1)

/-- Split a byte string into lines at `\r?\n`, as `.split(/\r?\n/g)` does. -/
def splitLinesAux : List Char → List Char → List String
  | [], acc => [String.mk acc.reverse]
  | '\r' :: '\n' :: rest, acc => String.mk acc.reverse :: splitLinesAux rest []
  | '\n' :: rest, acc => String.mk acc.reverse :: splitLinesAux rest []
  | c :: rest, acc => splitLinesAux rest (c :: acc)

/-- `contents.toString().split(/\r?\n/g)`. -/
def splitLines (s : String) : List String :=
  splitLinesAux s.data []

/-- `filesIgnoredFromConfig(config)`: the literal `ignore` patterns plus the
cached-or-read lines of `config.ignoreFile`; throws when the ignore-file is
missing.  Returns the result, the updated cache and the filesystem touches. -/
def filesIgnoredFromConfig (ext : Externals) (cache : Cache) (config : Obj) :
    Except CfgError (List String) × Cache × List FsEvent :=
  let ignore : List String := cfgIgnoreList config
  match cfgStr config "ignoreFile" with
  | none => (Except.ok ignore, cache, [])
  | some ignoreFile =>
    if ignoreFile == "" then (Except.ok ignore, cache, [])
    else if Cache.has cache ignoreFile then
      (Except.ok (ignore ++ (Cache.get cache ignoreFile).getD []), cache, [])
    else if ext.fsExists ignoreFile then
      let ignoreFromFile := splitLines (ext.fsRead ignoreFile)
      (Except.ok (ignore ++ ignoreFromFile), Cache.set cache ignoreFile ignoreFromFile,
        [FsEvent.statCheck ignoreFile, FsEvent.readFile ignoreFile])
    else
      (Except.error (CfgError.ignoreFileNotFound ignoreFile), cache,
        [FsEvent.statCheck ignoreFile])

/-- The predicate built by `_createIgnoreFn`: classify the path as local
(normalized path starts with the local context, i.e. `indexOf === 0`) or
remote, take the relative path under that root, never exclude the root
itself, otherwise delegate to the pattern engine. -/
def ignoreFunc (ext : Externals) (localContext remoteContext : String)
    (ign : String → Bool) (fsPath : String) : Bool :=
  let normalizedPath := ext.pathNormalize fsPath
  let relativePath :=
    if strStartsWith normalizedPath localContext then ext.pathRelative localContext fsPath
    else ext.upathRelative remoteContext fsPath
  relativePath != "" && ign relativePath

/-- `FileService._createIgnoreFn(config)`: `null` (modelled `none`) when the
merged pattern list is empty, else the `ignoreFunc` closure. -/
def FileService.createIgnoreFn (baseDir : String) (ext : Externals) (cache : Cache)
    (config : Obj) :
    Except CfgError (Option (String → Bool)) × Cache × List FsEvent :=
  let localContext := baseDir
  let remoteContext := (cfgStr config "remotePath").getD ""
  match filesIgnoredFromConfig ext cache config with
  | (Except.error e, c, ev) => (Except.error e, c, ev)
  | (Except.ok ignoreConfig, c, ev) =>
    if ignoreConfig.length ≤ 0 then (Except.ok none, c, ev)
    else
      (Except.ok (some (ignoreFunc ext localContext remoteContext (ext.ignores ignoreConfig))),
        c, ev)

/-- The raw `FileServiceConfig`: the profile map is kept apart from the other
fields, mirroring `delete copied.profiles` on the copy. -/
structure RawConfig where
  base : Obj
  profiles : Option (List (String × Obj))

/-- The `agent` env-indirection step of `getConfig` (lines 293-300): when the
`agent` field is truthy and starts with `$`, replace it by the value of the
named environment variable, or throw when that value is falsy. -/
def resolveAgent (copied : Obj) (env : String → Option String) : Except CfgError Obj :=
  match cfgStr copied "agent" with
  | some agent =>
    if agent != "" && strStartsWith agent "$" then
      let evnVarName := strSlice1 agent
      match env evnVarName with
      | some val =>
          if val != "" then Except.ok (Obj.set copied "agent" (CVal.str val))
          else Except.error (CfgError.envVarNotFound evnVarName)
      | none => Except.error (CfgError.envVarNotFound evnVarName)
    else Except.ok copied
  | none => Except.ok copied

/-- `config.profiles && Object.keys(config.profiles).length > 0`. -/
def profilesNonempty : Option (List (String × Obj)) → Bool
  | some ps => ps.length != 0
  | none => false

/-- The profile-merge step of `getConfig` (lines 302-314): when profiles
exist and the process-wide profile name is truthy, look the profile up —
unknown names throw — and `Object.assign` its fields over the copy. -/
def mergeProfile (profiles : Option (List (String × Obj))) (stateProfile : Option String)
    (copied : Obj) : Except CfgError Obj :=
  match profiles, stateProfile with
  | some ps, some p =>
    if ps.length != 0 && p != "" then
      match ps.find? (fun q => q.1 == p) with
      | some q => Except.ok (objAssign copied q.2)
      | none => Except.error (CfgError.unknownProfile p)
    else Except.ok copied
  | _, _ => Except.ok copied

/-- The validation step of `getConfig` (lines 316-325): run the installed
validator, if any; a truthy result throws, with a hint appended when
profiles exist but none is selected (`app.state.profile == null`). -/
def runValidator (configValidator : Option (Obj → Option String)) (hasProfile : Bool)
    (stateProfile : Option String) (copied : Obj) : Option CfgError :=
  match configValidator with
  | none => none
  | some v =>
    match v copied with
    | none => none
    | some message => some (CfgError.validationFail message (hasProfile && stateProfile.isNone))

/-- `FileService.getConfig()` (lines 288-330): copy the raw config without
its profile map, resolve the `agent` indirection, merge the active profile,
validate, and attach the ignore predicate.  Returns the resolved fields and
predicate, the updated ignore-file cache, and the filesystem touches. -/
def FileService.getConfig (baseDir : String) (cfg : RawConfig) (ext : Externals)
    (stateProfile : Option String) (configValidator : Option (Obj → Option String))
    (cache : Cache) :
    Except CfgError (Obj × Option (String → Bool)) × Cache × List FsEvent :=
  match resolveAgent cfg.base ext.env with
  | Except.error e => (Except.error e, cache, [])
  | Except.ok copied1 =>
    match mergeProfile cfg.profiles stateProfile copied1 with
    | Except.error e => (Except.error e, cache, [])
    | Except.ok copied2 =>
      match runValidator configValidator (profilesNonempty cfg.profiles) stateProfile copied2 with
      | some e => (Except.error e, cache, [])
      | none =>
        match FileService.createIgnoreFn baseDir ext cache copied2 with
        | (Except.error e, c, ev) => (Except.error e, c, ev)
        | (Except.ok ignOpt, c, ev) => (Except.ok (copied2, ignOpt), c, ev)

/-- Modelled from the spec: a Scheduler (§4.3, the `./scheduler` module is
not part of the shown source) owns a FIFO queue of not-yet-started tasks,
the running tasks, a fixed concurrency limit and a started flag
(constructed with `autoStart: false`). Tasks are identified by numbers. -/
structure SchedState where
  sid : Nat
  queued : List Nat
  running : List Nat
  concurrency : Nat
  started : Bool
deriving DecidableEq, Repr

/-- Modelled from the spec: `scheduler.empty()` removes all tasks not yet
started; running tasks are unaffected (§4.3). -/
def SchedState.empty (sc : SchedState) : SchedState :=
  { sc with queued := [] }

/-- Modelled from the spec: `scheduler.size` is the count of queued plus
running tasks (§4.3). -/
def SchedState.size (sc : SchedState) : Nat :=
  sc.queued.length + sc.running.length

/-- The File Service bookkeeping state: the active-scheduler list
(`_schedulers`), the pending already-started tasks
(`_pendingTransferTasks`), and the tasks that have been signalled
cancellation (each `TransferTask.cancel()` call sets the task's flag). -/
structure FSState where
  schedulers : List SchedState
  pendingTransferTasks : List Nat
  cancelledTasks : List Nat
deriving DecidableEq, Repr

/-- One observable step of `cancelTransferTasks`, in execution order. -/
inductive CancelEvent where
  | emptyScheduler (sid : Nat)
  | clearSchedulers
  | cancelTask (tid : Nat)
  | clearPending
deriving DecidableEq, Repr

/-- The phase of a `cancelTransferTasks` step: queue-draining happens first,
then the scheduler list is cleared, then running tasks are signalled, then
the pending set is cleared. -/
def CancelEvent.phase : CancelEvent → Nat
  | CancelEvent.emptyScheduler _ => 0
  | CancelEvent.clearSchedulers => 1
  | CancelEvent.cancelTask _ => 2
  | CancelEvent.clearPending => 3

/-- `FileService.cancelTransferTasks()` (lines 220-229): empty every active
scheduler's queue, truncate the scheduler list, then cancel every pending
task and clear the pending set.  Returns the new state, the emptied
scheduler objects (still alive through `run()` closures), and the ordered
trace of the steps performed. -/
def FileService.cancelTransferTasks (s : FSState) : FSState × List SchedState × List CancelEvent :=
  let emptied := s.schedulers.map SchedState.empty
  let s1 : FSState := { s with schedulers := [] }
  let s2 : FSState :=
    { s1 with
      cancelledTasks := s1.cancelledTasks ++ s.pendingTransferTasks,
      pendingTransferTasks := [] }
  (s2, emptied,
    s.schedulers.map (fun sc => CancelEvent.emptyScheduler sc.sid) ++
      [CancelEvent.clearSchedulers] ++
        s.pendingTransferTasks.map CancelEvent.cancelTask ++ [CancelEvent.clearPending])

/-- `FileService.isTransferring()` (lines 216-218). -/
def FileService.isTransferring (s : FSState) : Bool :=
  s.schedulers.length != 0

/-- `FileService._storeScheduler` as performed by `createTransferScheduler`
(lines 239-245): a fresh scheduler — `autoStart: false`, the given
concurrency, no tasks — is pushed onto the active-scheduler list before the
handle is returned. -/
def FileService.createTransferScheduler (s : FSState) (sid : Nat) (concurrency : Nat) : FSState :=
  { s with
    schedulers :=
      s.schedulers ++ [{ sid := sid, queued := [], running := [], concurrency := concurrency,
                         started := false }] }

/-- `TransferScheduler.add(task)` (lines 260-262): modelled from the spec
for the scheduler side, `scheduler.add` appends the task to the pending
queue (§4.3); the active-scheduler list is untouched. -/
def TransferScheduler.add (s : FSState) (sid : Nat) (tid : Nat) : FSState :=
  { s with
    schedulers :=
      s.schedulers.map (fun sc =>
        if sc.sid == sid then { sc with queued := sc.queued ++ [tid] } else sc) }

/-- `FileService._removeScheduler` (lines 341-346): `findIndex` then
`splice(index, 1)` — remove the first matching entry, if any. -/
def FileService.removeScheduler (s : FSState) (sid : Nat) : FSState :=
  match s.schedulers.findIdx? (fun x => x.sid == sid) with
  | none => s
  | some index => { s with schedulers := s.schedulers.eraseIdx index }

/-- Modelled from the spec: `scheduler.start()` begins dispatching (§4.3);
for the bookkeeping model only the started flag matters. -/
def FSState.startScheduler (s : FSState) (sid : Nat) : FSState :=
  { s with
    schedulers :=
      s.schedulers.map (fun x => if x.sid == sid then { x with started := true } else x) }

/-- The two ways `TransferScheduler.run()` (lines 263-276) can proceed:
resolve the promise at once without calling `scheduler.start()`, or start
the scheduler with the resolution deferred to its idle notification. -/
inductive RunStep where
  | immediate (resolved : FSState)
  | started (s' : FSState)
deriving Repr

/-- `TransferScheduler.run()` (lines 263-276): an empty scheduler resolves
immediately after `_removeScheduler`; otherwise `onIdle` is registered and
the scheduler started. -/
def TransferScheduler.run (s : FSState) (sc : SchedState) : RunStep :=
  if sc.size ≤ 0 then RunStep.immediate (FileService.removeScheduler s sc.sid)
  else RunStep.started (FSState.startScheduler s sc.sid)

/-- The `onIdle` callback registered by `run()` (lines 270-273): at idle,
`_removeScheduler` runs and then the promise resolves, in whatever File
Service state holds at that time. -/
def TransferScheduler.runResolveOnIdle (s : FSState) (sid : Nat) : FSState :=
  FileService.removeScheduler s sid

/-- A trivial instantiation of the external collaborators, for concrete
evaluations: empty environment, empty filesystem, identity path library. -/
def extTriv : Externals where
  env := fun _ => none
  fsExists := fun _ => false
  fsRead := fun _ => ""
  pathNormalize := fun p => p
  pathRelative := fun _ _ => ""
  upathRelative := fun _ _ => ""
  ignores := fun _ _ => true

/-- Externals over a filesystem where every file exists with a fixed
two-line content. -/
def extFs : Externals :=
  { extTriv with fsExists := fun _ => true, fsRead := fun _ => "a\r\nb" }

/-- Externals whose environment binds `FOO` to the empty string. -/
def extEnvEmpty : Externals :=
  { extTriv with env := fun n => if n == "FOO" then some "" else none }

/-- Externals whose environment binds `FOO` to `/run/agent.sock`. -/
def extEnvVal : Externals :=
  { extTriv with env := fun n => if n == "FOO" then some "/run/agent.sock" else none }

/-- A concrete File Service state: one started scheduler with a queued and
a running task, the running task pending. -/
def fsStateW : FSState where
  schedulers := [{ sid := 1, queued := [5], running := [6], concurrency := 2, started := true }]
  pendingTransferTasks := [6]
  cancelledTasks := []

/-! ### Helper lemmas -/

theorem Obj.get_cons (q : String × CVal) (o : Obj) (k : String) :
    Obj.get (q :: o) k = if q.1 == k then some q.2 else Obj.get o k := by
  unfold Obj.get
  rw [List.find?_cons]
  cases h : (q.1 == k) <;> simp [h]

theorem Obj.get_filter_ne (o : Obj) (k k' : String) (h : k ≠ k') :
    Obj.get (o.filter (fun q => q.1 != k')) k = Obj.get o k := by
  induction o with
  | nil => rfl
  | cons a t ih =>
    by_cases ha : a.1 = k'
    · have h1 : (a.1 != k') = false := by simp [ha]
      have h2 : (a.1 == k) = false := by simp [ha]; exact fun hk => h (hk ▸ rfl)
      simp [List.filter_cons, h1, Obj.get_cons, h2, ih]
    · have h1 : (a.1 != k') = true := by simp [ha]
      simp [List.filter_cons, h1, Obj.get_cons, ih]

theorem Obj.get_set_self (o : Obj) (k : String) (v : CVal) :
    Obj.get (Obj.set o k v) k = some v := by
  simp [Obj.set, Obj.get_cons]

theorem Obj.get_set_ne (o : Obj) (k k' : String) (v : CVal) (h : k ≠ k') :
    Obj.get (Obj.set o k' v) k = Obj.get o k := by
  have h2 : (k' == k) = false := by simp; exact fun hk => h (hk ▸ rfl)
  simp [Obj.set, Obj.get_cons, h2, Obj.get_filter_ne o k k' h]

theorem Obj.get_eq_none (o : Obj) (k : String) (h : k ∉ o.map Prod.fst) :
    Obj.get o k = none := by
  induction o with
  | nil => rfl
  | cons a t ih =>
    simp only [List.map_cons, List.mem_cons] at h
    push_neg at h
    have h1 : (a.1 == k) = false := by simp; exact fun hk => h.1 (hk ▸ rfl)
    simp [Obj.get_cons, h1, ih h.2]

theorem objAssign_get (t s : Obj) (hnd : (s.map Prod.fst).Nodup) (k : String) :
    Obj.get (objAssign t s) k = (Obj.get s k).orElse (fun _ => Obj.get t k) := by
  induction s generalizing t with
  | nil => simp [objAssign, Obj.get, List.find?]
  | cons q rest ih =>
    simp only [List.map_cons, List.nodup_cons] at hnd
    have step : objAssign t (q :: rest) = objAssign (Obj.set t q.1 q.2) rest := rfl
    rw [step, ih _ hnd.2, Obj.get_cons]
    by_cases hk : q.1 = k
    · subst hk
      have hrest : Obj.get rest q.1 = none := Obj.get_eq_none rest q.1 hnd.1
      simp [hrest, Obj.get_set_self]
    · have h1 : (q.1 == k) = false := by simp [hk]
      rw [Obj.get_set_ne t k q.1 q.2 (fun hkk => hk (hkk ▸ rfl))]
      simp [h1]

theorem Cache.get_after_set (c : Cache) (k : String) (v : List String) :
    Cache.get (Cache.set c k v) k = some v := by
  simp [Cache.set, Cache.get, List.find?_cons]

theorem Cache.has_set_self (c : Cache) (k : String) (v : List String) :
    Cache.has (Cache.set c k v) k = true := by
  simp [Cache.set, Cache.has]

theorem removeFirst_eq_eraseP {α : Type} (p : α → Bool) (l : List α) :
    (match l.findIdx? p with | none => l | some i => l.eraseIdx i) = l.eraseP p := by
  induction l with
  | nil => simp [List.findIdx?_nil, List.eraseP_nil]
  | cons a t ih =>
    rw [List.findIdx?_cons, List.findIdx?_succ, List.eraseP_cons]
    cases h : p a
    · simp only [h, if_false, Bool.cond_false]
      cases hf : t.findIdx? p
      · rw [hf] at ih
        simp only [hf, Option.map_none']
        simpa using congrArg (List.cons a) ih
      · rw [hf] at ih
        simp only [hf, Option.map_some', List.eraseIdx_cons_succ]
        simpa using congrArg (List.cons a) ih
    · simp [h]

theorem eraseP_pred_false {α : Type} (p : α → Bool) (l : List α) (h : l.countP p ≤ 1)
    (x : α) (hx : x ∈ l.eraseP p) : p x = false := by
  induction l with
  | nil => simp at hx
  | cons a t ih =>
    rw [List.eraseP_cons] at hx
    cases ha : p a
    · rw [ha] at hx
      simp only [Bool.cond_false, List.mem_cons] at hx
      rcases hx with rfl | hx
      · exact ha
      · refine ih ?_ hx
        rw [List.countP_cons, ha] at h
        simpa using h
    · rw [ha] at hx
      simp only [Bool.cond_true] at hx
      rw [List.countP_cons, ha] at h
      simp only [if_true] at h
      have ht : t.countP p = 0 := by omega
      have := List.countP_eq_zero.mp ht x hx
      simpa using this

/-! ### Claim theorems -/

/-- C4: for every configuration whose `ignore` list is empty and whose
`ignoreFile` is absent, `_createIgnoreFn` attaches no ignore predicate at
all — the resolved `ignore` is `none` (the absence of a function, not a
constantly-false function) — and neither the cache nor the filesystem is
touched. -/
theorem createIgnoreFn_empty_config_none (baseDir : String) (ext : Externals) (cache : Cache)
    (config : Obj)
    (hIgnore : Obj.get config "ignore" = some (CVal.strList []))
    (hFile : Obj.get config "ignoreFile" = none) :
    FileService.createIgnoreFn baseDir ext cache config = (Except.ok none, cache, []) := by
  simp only [FileService.createIgnoreFn, filesIgnoredFromConfig, cfgIgnoreList, cfgStr,
    hIgnore, hFile]
  simp

/-- Witness for C4: evaluated on a concrete empty-ignore configuration. -/
theorem createIgnoreFn_empty_config_none_witness :
    FileService.createIgnoreFn "/base" extTriv [] [("ignore", CVal.strList [])]
      = (Except.ok none, [], []) :=
  createIgnoreFn_empty_config_none "/base" extTriv [] [("ignore", CVal.strList [])] rfl rfl

/-- C5: a present `ignoreFile` whose path is neither in the cache nor on
disk makes resolution fail with the `ConfigError` whose message names both
the missing path and the `ignoreFile` configuration key. -/
theorem filesIgnored_missing_file_error (ext : Externals) (cache : Cache) (config : Obj)
    (p : String)
    (hFile : Obj.get config "ignoreFile" = some (CVal.str p)) (hp : p ≠ "")
    (hCache : Cache.has cache p = false) (hFs : ext.fsExists p = false) :
    filesIgnoredFromConfig ext cache config
        = (Except.error (CfgError.ignoreFileNotFound p), cache, [FsEvent.statCheck p])
      ∧ (∃ x y, CfgError.render (CfgError.ignoreFileNotFound p) = x ++ p ++ y)
      ∧ (∃ x y, CfgError.render (CfgError.ignoreFileNotFound p) = x ++ "ignoreFile" ++ y) := by
  refine ⟨?_, ⟨"File ", " not found. Check your config of \"ignoreFile\"", rfl⟩, ?_⟩
  · have hp' : (p == "") = false := by simp [hp]
    simp only [filesIgnoredFromConfig, cfgStr, hFile]
    simp [hp', hCache, hFs]
  · refine ⟨"File " ++ p ++ " not found. Check your config of \"", "\"", ?_⟩
    rw [String.append_assoc, String.append_assoc]
    exact congrArg (fun z => "File " ++ p ++ z) (by decide)

/-- Witness for C5: evaluated on a concrete configuration naming a missing
ignore-file. -/
theorem filesIgnored_missing_file_error_witness :
    filesIgnoredFromConfig extTriv [] [("ignoreFile", CVal.str "/x/.sftpignore")]
        = (Except.error (CfgError.ignoreFileNotFound "/x/.sftpignore"), [],
            [FsEvent.statCheck "/x/.sftpignore"])
      ∧ (∃ x y, CfgError.render (CfgError.ignoreFileNotFound "/x/.sftpignore")
            = x ++ "/x/.sftpignore" ++ y)
      ∧ (∃ x y, CfgError.render (CfgError.ignoreFileNotFound "/x/.sftpignore")
            = x ++ "ignoreFile" ++ y) :=
  filesIgnored_missing_file_error extTriv [] [("ignoreFile", CVal.str "/x/.sftpignore")]
    "/x/.sftpignore" rfl (by decide) rfl rfl

/-- C6: for an existing `ignoreFile`, the first resolution checks existence,
reads the file once, and stores its line list in the cache keyed by the
path; every later resolution that finds the path cached returns the cached
lines with no filesystem touch at all. -/
theorem filesIgnored_reads_disk_once (ext : Externals) (cache : Cache) (config : Obj)
    (p : String)
    (hFile : Obj.get config "ignoreFile" = some (CVal.str p)) (hp : p ≠ "")
    (hCache : Cache.has cache p = false) (hFs : ext.fsExists p = true) :
    filesIgnoredFromConfig ext cache config
        = (Except.ok (cfgIgnoreList config ++ splitLines (ext.fsRead p)),
            Cache.set cache p (splitLines (ext.fsRead p)),
            [FsEvent.statCheck p, FsEvent.readFile p])
      ∧ Cache.get (Cache.set cache p (splitLines (ext.fsRead p))) p
          = some (splitLines (ext.fsRead p))
      ∧ (∀ cache2 : Cache, Cache.has cache2 p = true →
          filesIgnoredFromConfig ext cache2 config
            = (Except.ok (cfgIgnoreList config ++ (Cache.get cache2 p).getD []), cache2, [])) := by
  have hp' : (p == "") = false := by simp [hp]
  refine ⟨?_, Cache.get_after_set cache p (splitLines (ext.fsRead p)), ?_⟩
  · simp only [filesIgnoredFromConfig, cfgStr, hFile]
    simp [hp', hCache, hFs]
  · intro cache2 h2
    simp only [filesIgnoredFromConfig, cfgStr, hFile]
    simp [hp', h2]

/-- Witness for C6: evaluated on a concrete filesystem holding a two-line
ignore-file. -/
theorem filesIgnored_reads_disk_once_witness :
    filesIgnoredFromConfig extFs [] [("ignoreFile", CVal.str "/x/.sftpignore")]
        = (Except.ok ([] ++ splitLines (extFs.fsRead "/x/.sftpignore")),
            Cache.set [] "/x/.sftpignore" (splitLines (extFs.fsRead "/x/.sftpignore")),
            [FsEvent.statCheck "/x/.sftpignore", FsEvent.readFile "/x/.sftpignore"])
      ∧ Cache.get (Cache.set [] "/x/.sftpignore" (splitLines (extFs.fsRead "/x/.sftpignore")))
            "/x/.sftpignore"
          = some (splitLines (extFs.fsRead "/x/.sftpignore"))
      ∧ (∀ cache2 : Cache, Cache.has cache2 "/x/.sftpignore" = true →
          filesIgnoredFromConfig extFs cache2 [("ignoreFile", CVal.str "/x/.sftpignore")]
            = (Except.ok ([] ++ (Cache.get cache2 "/x/.sftpignore").getD []), cache2, [])) :=
  filesIgnored_reads_disk_once extFs [] [("ignoreFile", CVal.str "/x/.sftpignore")]
    "/x/.sftpignore" rfl (by decide) rfl rfl

/-- C3: whenever configuration resolution attaches an ignore predicate,
that predicate returns `false` on any path whose relative path under the
matched root (the local base directory on a prefix match, the remote root
otherwise) is the empty string: the root itself is never excluded, whatever
the pattern list. -/
theorem ignore_root_never_excluded (baseDir : String) (ext : Externals) (cache : Cache)
    (config : Obj) (f : String → Bool)
    (hf : (FileService.createIgnoreFn baseDir ext cache config).1 = Except.ok (some f))
    (fsPath : String)
    (hrel : (if strStartsWith (ext.pathNormalize fsPath) baseDir
             then ext.pathRelative baseDir fsPath
             else ext.upathRelative ((cfgStr config "remotePath").getD "") fsPath) = "") :
    f fsPath = false := by
  simp only [FileService.createIgnoreFn] at hf
  rcases hfi : filesIgnoredFromConfig ext cache config with ⟨r, c, ev⟩
  rw [hfi] at hf
  cases r with
  | error e => simp at hf
  | ok ignoreConfig =>
    by_cases hlen : ignoreConfig.length ≤ 0
    · simp [hlen] at hf
    · simp only [hlen, if_false] at hf
      have hf' : f = ignoreFunc ext baseDir ((cfgStr config "remotePath").getD "")
          (ext.ignores ignoreConfig) := by
        have := Except.ok.inj hf
        exact (Option.some.inj this).symm
      rw [hf']
      simp only [ignoreFunc, hrel]
      simp

/-- Witness for C3: a concrete configuration with one pattern, evaluated at
a path whose relative path is empty. -/
theorem ignore_root_never_excluded_witness :
    ignoreFunc extTriv "" "" (extTriv.ignores ["x"]) "/p" = false :=
  ignore_root_never_excluded "" extTriv [] [("ignore", CVal.strList ["x"])]
    (ignoreFunc extTriv "" "" (extTriv.ignores ["x"])) rfl "/p" (by simp [extTriv])


theorem resolveAgent_error_shape (copied : Obj) (env : String → Option String) (e : CfgError)
    (h : resolveAgent copied env = Except.error e) :
    ∃ n, e = CfgError.envVarNotFound n := by
  unfold resolveAgent at h
  split at h
  · split at h
    · dsimp only at h
      split at h
      · split at h
        · exact absurd h (by simp)
        · exact ⟨_, (Except.error.inj h).symm⟩
      · exact ⟨_, (Except.error.inj h).symm⟩
    · exact absurd h (by simp)
  · exact absurd h (by simp)

theorem mergeProfile_error_shape (profiles : Option (List (String × Obj)))
    (stateProfile : Option String) (copied : Obj) (e : CfgError)
    (h : mergeProfile profiles stateProfile copied = Except.error e) :
    ∃ n, e = CfgError.unknownProfile n := by
  unfold mergeProfile at h
  split at h
  · split at h
    · split at h
      · exact absurd h (by simp)
      · exact ⟨_, (Except.error.inj h).symm⟩
    · exact absurd h (by simp)
  · exact absurd h (by simp)

theorem filesIgnored_error_shape (ext : Externals) (cache : Cache) (config : Obj) (e : CfgError)
    (h : (filesIgnoredFromConfig ext cache config).1 = Except.error e) :
    ∃ f, e = CfgError.ignoreFileNotFound f := by
  unfold filesIgnoredFromConfig at h
  split at h
  · exact absurd h (by simp)
  · split at h
    · exact absurd h (by simp)
    · split at h
      · exact absurd h (by simp)
      · split at h
        · exact absurd h (by simp)
        · exact ⟨_, (Except.error.inj h).symm⟩

theorem createIgnoreFn_error_shape (baseDir : String) (ext : Externals) (cache : Cache)
    (config : Obj) (e : CfgError)
    (h : (FileService.createIgnoreFn baseDir ext cache config).1 = Except.error e) :
    ∃ f, e = CfgError.ignoreFileNotFound f := by
  unfold FileService.createIgnoreFn at h
  split at h
  next e' c ev heq =>
    have he : e' = e := Except.error.inj h
    subst he
    exact filesIgnored_error_shape ext cache config e' (by rw [heq])
  next l c ev heq =>
    split at h
    · exact absurd h (by simp)
    · exact absurd h (by simp)

theorem createIgnoreFn_ok_of_no_ignoreFile (baseDir : String) (ext : Externals) (cache : Cache)
    (config : Obj) (h : Obj.get config "ignoreFile" = none) :
    ∃ ign, FileService.createIgnoreFn baseDir ext cache config = (Except.ok ign, cache, []) := by
  have hfi : filesIgnoredFromConfig ext cache config
      = (Except.ok (cfgIgnoreList config), cache, []) := by
    unfold filesIgnoredFromConfig cfgStr
    rw [h]
  unfold FileService.createIgnoreFn
  simp only [hfi]
  by_cases hl : (cfgIgnoreList config).length ≤ 0
  · exact ⟨none, by rw [if_pos hl]⟩
  · exact ⟨_, by rw [if_neg hl]⟩

/-- C7: when the raw configuration has a non-empty profile map and the
process-wide active profile name is set, an unknown name makes `getConfig`
fail with the `ConfigError` mentioning that name, and a known name
shallow-merges the profile's fields over the base configuration with
profile fields taking precedence. -/
theorem getConfig_profile_handling (baseDir : String) (cfg : RawConfig) (ext : Externals)
    (stateProfile : Option String) (configValidator : Option (Obj → Option String))
    (cache : Cache) (ps : List (String × Obj)) (p : String) (b : Obj)
    (hps : cfg.profiles = some ps) (hne : ps ≠ []) (hsp : stateProfile = some p)
    (hp : p ≠ "") (hagent : resolveAgent cfg.base ext.env = Except.ok b) :
    (ps.find? (fun q => q.1 == p) = none →
      FileService.getConfig baseDir cfg ext stateProfile configValidator cache
          = (Except.error (CfgError.unknownProfile p), cache, [])
        ∧ ∃ x y, CfgError.render (CfgError.unknownProfile p) = x ++ p ++ y)
    ∧ (∀ q, ps.find? (fun q' => q'.1 == p) = some q →
        mergeProfile cfg.profiles stateProfile b = Except.ok (objAssign b q.2)
        ∧ ((q.2.map Prod.fst).Nodup → ∀ k,
            Obj.get (objAssign b q.2) k
              = (Obj.get q.2 k).orElse (fun _ => Obj.get b k))) := by
  have hcond : (ps.length != 0 && p != "") = true := by
    simp [hp]
    exact hne
  constructor
  · intro hfind
    have hmp : mergeProfile cfg.profiles stateProfile b
        = Except.error (CfgError.unknownProfile p) := by
      unfold mergeProfile
      simp only [hps, hsp]
      rw [if_pos hcond, hfind]
    constructor
    · unfold FileService.getConfig
      simp only [hagent, hmp]
    · refine ⟨"Unkown Profile \"",
        "\"." ++ " Please check your profile setting." ++
          " You can set a profile by running command `SFTP: Set Profile`.", ?_⟩
      simp only [CfgError.render]
      simp [String.append_assoc]
  · intro q hfind
    have hmp : mergeProfile cfg.profiles stateProfile b = Except.ok (objAssign b q.2) := by
      unfold mergeProfile
      simp only [hps, hsp]
      rw [if_pos hcond, hfind]
    exact ⟨hmp, fun hnd k => objAssign_get b q.2 hnd k⟩

/-- Witness for C7: a concrete base configuration with one profile `dev`
that overrides the `host` field; the merge performs and the profile value
wins. -/
theorem getConfig_profile_handling_witness :
    mergeProfile (some [("dev", [("host", CVal.str "d")])]) (some "dev")
        [("host", CVal.str "h")]
      = Except.ok (objAssign [("host", CVal.str "h")] [("host", CVal.str "d")])
    ∧ Obj.get (objAssign [("host", CVal.str "h")] [("host", CVal.str "d")]) "host"
      = (Obj.get [("host", CVal.str "d")] "host").orElse
          (fun _ => Obj.get [("host", CVal.str "h")] "host") := by
  have h := (getConfig_profile_handling "" ⟨[("host", CVal.str "h")],
      some [("dev", [("host", CVal.str "d")])]⟩ extTriv (some "dev") none []
      [("dev", [("host", CVal.str "d")])] "dev" [("host", CVal.str "h")]
      rfl (by decide) rfl (by decide) rfl).2
      ("dev", [("host", CVal.str "d")]) rfl
  exact ⟨h.1, h.2 (by decide) "host"⟩

/-- C10: when no validator was installed, `getConfig` performs no
validation step: whatever the raw configuration, environment, profile
state and cache, it never fails with a validation `ConfigError`. -/
theorem getConfig_no_validator_never_validation_error (baseDir : String) (cfg : RawConfig)
    (ext : Externals) (stateProfile : Option String)
    (configValidator : Option (Obj → Option String)) (cache : Cache)
    (hv : configValidator = none) (m : String) (hint : Bool) :
    (FileService.getConfig baseDir cfg ext stateProfile configValidator cache).1
      ≠ Except.error (CfgError.validationFail m hint) := by
  subst hv
  intro h
  unfold FileService.getConfig at h
  cases hag : resolveAgent cfg.base ext.env with
  | error e =>
    simp only [hag] at h
    obtain ⟨n, rfl⟩ := resolveAgent_error_shape cfg.base ext.env e hag
    simp at h
  | ok c1 =>
    simp only [hag] at h
    cases hmp : mergeProfile cfg.profiles stateProfile c1 with
    | error e =>
      simp only [hmp] at h
      obtain ⟨n, rfl⟩ := mergeProfile_error_shape _ _ _ e hmp
      simp at h
    | ok c2 =>
      simp only [hmp, runValidator] at h
      rcases hci : FileService.createIgnoreFn baseDir ext cache c2 with ⟨r, cc, ev⟩
      simp only [hci] at h
      cases r with
      | error e =>
        obtain ⟨f, rfl⟩ := createIgnoreFn_error_shape baseDir ext cache c2 e (by rw [hci])
        simp at h
      | ok ignOpt => simp at h

/-- Witness for C10: evaluated with a concrete installed-validator-free
service at a concrete configuration. -/
theorem getConfig_no_validator_never_validation_error_witness :
    (FileService.getConfig "" ⟨[("host", CVal.str "h")], none⟩ extTriv none none []).1
      ≠ Except.error (CfgError.validationFail "bad" false) :=
  getConfig_no_validator_never_validation_error "" ⟨[("host", CVal.str "h")], none⟩
    extTriv none none [] rfl "bad" false

theorem resolveAgent_dollar (copied : Obj) (env : String → Option String) (a : String)
    (hag : cfgStr copied "agent" = some a)
    (hguard : (a != "" && strStartsWith a "$") = true) :
    resolveAgent copied env
      = match env (strSlice1 a) with
        | some val =>
            if (val != "") = true then Except.ok (Obj.set copied "agent" (CVal.str val))
            else Except.error (CfgError.envVarNotFound (strSlice1 a))
        | none => Except.error (CfgError.envVarNotFound (strSlice1 a)) := by
  unfold resolveAgent
  simp only [hag]
  rw [if_pos hguard]

theorem resolveAgent_skip (copied : Obj) (env : String → Option String) (a : String)
    (hag : cfgStr copied "agent" = some a)
    (hguard : (a != "" && strStartsWith a "$") = false) :
    resolveAgent copied env = Except.ok copied := by
  unfold resolveAgent
  simp only [hag]
  rw [if_neg (by simp [hguard])]

theorem mergeProfile_no_profiles (stateProfile : Option String) (copied : Obj) :
    mergeProfile none stateProfile copied = Except.ok copied := by
  unfold mergeProfile
  cases stateProfile <;> rfl

theorem getConfig_ok_of_steps (baseDir : String) (cfg : RawConfig) (ext : Externals)
    (stateProfile : Option String) (cache : Cache) (b : Obj)
    (hagent : resolveAgent cfg.base ext.env = Except.ok b)
    (hprof : cfg.profiles = none)
    (hb : Obj.get b "ignoreFile" = none) :
    ∃ ign, FileService.getConfig baseDir cfg ext stateProfile none cache
        = (Except.ok (b, ign), cache, []) := by
  obtain ⟨ign, hci⟩ := createIgnoreFn_ok_of_no_ignoreFile baseDir ext cache b hb
  refine ⟨ign, ?_⟩
  unfold FileService.getConfig
  simp only [hagent, hprof, mergeProfile_no_profiles, runValidator, hci]

/-- C8 counterexample: with `agent: "$FOO"` and the environment variable
`FOO` present but bound to the empty string — set, hence not unset —
`getConfig` still fails with the environment-variable `ConfigError`,
refuting that the failure happens exactly when the variable is unset. -/
theorem getConfig_agent_env_counterexample :
    (extEnvEmpty.env "FOO").isSome = true
      ∧ (FileService.getConfig "" ⟨[("agent", CVal.str "$FOO")], none⟩ extEnvEmpty
            none none []).1
          = Except.error (CfgError.envVarNotFound "FOO") :=
  ⟨rfl, rfl⟩

/-- C8 (amended): for a raw configuration whose `agent` field is non-empty
and starts with `$` — with no profiles and no ignore-file, so only the
agent step can fail — `getConfig` fails with the environment-variable
`ConfigError` exactly when the variable is unset **or set to the empty
string**; when the variable has a non-empty value the resolved `agent`
field equals that value; an `agent` not starting with `$` (or empty) is
left unchanged. -/
theorem getConfig_agent_env_indirection (baseDir : String) (cfg : RawConfig) (ext : Externals)
    (stateProfile : Option String) (cache : Cache)
    (hprof : cfg.profiles = none) (hif : Obj.get cfg.base "ignoreFile" = none) :
    (∀ a, cfgStr cfg.base "agent" = some a → a ≠ "" → strStartsWith a "$" = true →
      ((ext.env (strSlice1 a) = none ∨ ext.env (strSlice1 a) = some "") ↔
          (FileService.getConfig baseDir cfg ext stateProfile none cache).1
            = Except.error (CfgError.envVarNotFound (strSlice1 a)))
        ∧ (∀ v, ext.env (strSlice1 a) = some v → v ≠ "" →
            ∃ ign, FileService.getConfig baseDir cfg ext stateProfile none cache
                = (Except.ok (Obj.set cfg.base "agent" (CVal.str v), ign), cache, [])
              ∧ Obj.get (Obj.set cfg.base "agent" (CVal.str v)) "agent"
                  = some (CVal.str v)))
    ∧ (∀ a, cfgStr cfg.base "agent" = some a → (a = "" ∨ strStartsWith a "$" = false) →
        ∃ ign, FileService.getConfig baseDir cfg ext stateProfile none cache
            = (Except.ok (cfg.base, ign), cache, [])) := by
  constructor
  · intro a hag ha hd
    have hguard : (a != "" && strStartsWith a "$") = true := by simp [ha, hd]
    have hra := resolveAgent_dollar cfg.base ext.env a hag hguard
    constructor
    · constructor
      · intro hfal
        have herr : resolveAgent cfg.base ext.env
            = Except.error (CfgError.envVarNotFound (strSlice1 a)) := by
          rcases hfal with he | he
          · rw [hra, he]
          · rw [hra, he]; simp
        unfold FileService.getConfig
        simp only [herr]
      · intro herr2
        by_contra hnf
        push_neg at hnf
        obtain ⟨hne1, hne2⟩ := hnf
        cases he : ext.env (strSlice1 a) with
        | none => exact hne1 he
        | some v =>
          have hv : v ≠ "" := fun hveq => hne2 (hveq ▸ he)
          have hok : resolveAgent cfg.base ext.env
              = Except.ok (Obj.set cfg.base "agent" (CVal.str v)) := by
            rw [hra, he]
            simp [hv]
          obtain ⟨ign, hgc⟩ := getConfig_ok_of_steps baseDir cfg ext stateProfile cache _
            hok hprof (by rw [Obj.get_set_ne _ _ _ _ (by decide)]; exact hif)
          rw [hgc] at herr2
          exact absurd herr2 (by simp)
    · intro v he hv
      have hok : resolveAgent cfg.base ext.env
          = Except.ok (Obj.set cfg.base "agent" (CVal.str v)) := by
        rw [hra, he]
        simp [hv]
      obtain ⟨ign, hgc⟩ := getConfig_ok_of_steps baseDir cfg ext stateProfile cache _
        hok hprof (by rw [Obj.get_set_ne _ _ _ _ (by decide)]; exact hif)
      exact ⟨ign, hgc, Obj.get_set_self _ _ _⟩
  · intro a hag hskip
    have hguard : (a != "" && strStartsWith a "$") = false := by
      rcases hskip with rfl | hd
      · simp
      · simp [hd]
    have hok := resolveAgent_skip cfg.base ext.env a hag hguard
    exact getConfig_ok_of_steps baseDir cfg ext stateProfile cache cfg.base hok hprof hif

/-- Witness for the amended C8: a concrete configuration with
`agent: "$FOO"` and `FOO` bound to a non-empty value resolves with the
substituted agent field. -/
theorem getConfig_agent_env_indirection_witness :
    ∃ ign, FileService.getConfig "" ⟨[("agent", CVal.str "$FOO")], none⟩ extEnvVal none none []
        = (Except.ok (Obj.set [("agent", CVal.str "$FOO")] "agent"
            (CVal.str "/run/agent.sock"), ign), [], [])
      ∧ Obj.get (Obj.set [("agent", CVal.str "$FOO")] "agent" (CVal.str "/run/agent.sock"))
          "agent" = some (CVal.str "/run/agent.sock") :=
  ((getConfig_agent_env_indirection "" ⟨[("agent", CVal.str "$FOO")], none⟩
      extEnvVal none [] rfl rfl).1 "$FOO" rfl (by decide) (by decide)).2
    "/run/agent.sock" (by decide) (by decide)

theorem CancelEvent.phase_le_three (e : CancelEvent) : CancelEvent.phase e ≤ 3 := by
  cases e <;> simp [CancelEvent.phase]

theorem pairwise_const_phase (l : List CancelEvent) (k : Nat)
    (h : ∀ a ∈ l, CancelEvent.phase a = k) :
    l.Pairwise (fun a b => CancelEvent.phase a ≤ CancelEvent.phase b) := by
  induction l with
  | nil => exact List.Pairwise.nil
  | cons a t ih =>
    refine List.Pairwise.cons ?_ (ih fun b hb => h b (by simp [hb]))
    intro b hb
    rw [h a (by simp), h b (by simp [hb])]

theorem removeScheduler_schedulers (s : FSState) (sid : Nat) :
    (FileService.removeScheduler s sid).schedulers
      = s.schedulers.eraseP (fun x => x.sid == sid) := by
  have hbridge := removeFirst_eq_eraseP (fun x : SchedState => x.sid == sid) s.schedulers
  unfold FileService.removeScheduler
  cases hf : s.schedulers.findIdx? (fun x => x.sid == sid) with
  | none =>
    rw [hf] at hbridge
    simpa using hbridge
  | some i =>
    rw [hf] at hbridge
    simpa using hbridge

/-- C1: `cancelTransferTasks()` performs its steps in order: it first
empties every active scheduler's not-yet-started queue, then clears the
active-scheduler list, and only after that signals cancellation to every
currently pending (already-started) task and clears the pending set — and
afterwards the active-scheduler list and the pending set are both empty.
The trace lists one step per scheduler and per pending task, and its phases
are monotone: every queue-drain precedes the list-clear, which precedes
every task-cancellation, which precede the pending-clear. -/
theorem cancelTransferTasks_ordered (s : FSState) :
    ((FileService.cancelTransferTasks s).2.1 = s.schedulers.map SchedState.empty
        ∧ ∀ sc ∈ (FileService.cancelTransferTasks s).2.1, sc.queued = [])
      ∧ (FileService.cancelTransferTasks s).2.2.Pairwise
          (fun a b => CancelEvent.phase a ≤ CancelEvent.phase b)
      ∧ (∀ sc ∈ s.schedulers,
          CancelEvent.emptyScheduler sc.sid ∈ (FileService.cancelTransferTasks s).2.2)
      ∧ CancelEvent.clearSchedulers ∈ (FileService.cancelTransferTasks s).2.2
      ∧ (∀ t ∈ s.pendingTransferTasks,
          CancelEvent.cancelTask t ∈ (FileService.cancelTransferTasks s).2.2)
      ∧ CancelEvent.clearPending ∈ (FileService.cancelTransferTasks s).2.2
      ∧ (∀ t ∈ s.pendingTransferTasks,
          t ∈ (FileService.cancelTransferTasks s).1.cancelledTasks)
      ∧ (FileService.cancelTransferTasks s).1.schedulers = []
      ∧ (FileService.cancelTransferTasks s).1.pendingTransferTasks = [] := by
  unfold FileService.cancelTransferTasks
  refine ⟨⟨rfl, ?_⟩, ?_, ?_, ?_, ?_, ?_, ?_, rfl, rfl⟩
  · intro sc hsc
    rcases List.mem_map.mp hsc with ⟨x, _, rfl⟩
    rfl
  · refine List.pairwise_append.mpr ⟨List.pairwise_append.mpr
      ⟨List.pairwise_append.mpr ⟨?_, ?_, ?_⟩, ?_, ?_⟩, ?_, ?_⟩
    · exact pairwise_const_phase _ 0 (by
        intro a ha
        rcases List.mem_map.mp ha with ⟨x, _, rfl⟩
        rfl)
    · simp
    · intro a ha b hb
      rcases List.mem_map.mp ha with ⟨x, _, rfl⟩
      simp only [List.mem_singleton] at hb
      subst hb
      simp [CancelEvent.phase]
    · exact pairwise_const_phase _ 2 (by
        intro a ha
        rcases List.mem_map.mp ha with ⟨x, _, rfl⟩
        rfl)
    · intro a ha b hb
      rcases List.mem_append.mp ha with ha' | ha'
      · rcases List.mem_map.mp ha' with ⟨x, _, rfl⟩
        rcases List.mem_map.mp hb with ⟨y, _, rfl⟩
        simp [CancelEvent.phase]
      · simp only [List.mem_singleton] at ha'
        subst ha'
        rcases List.mem_map.mp hb with ⟨y, _, rfl⟩
        simp [CancelEvent.phase]
    · simp
    · intro a _ b hb
      simp only [List.mem_singleton] at hb
      subst hb
      exact CancelEvent.phase_le_three a
  · intro sc hsc
    simp only [List.mem_append, List.mem_map]
    exact Or.inl (Or.inl (Or.inl ⟨sc, hsc, rfl⟩))
  · simp
  · intro t ht
    simp only [List.mem_append, List.mem_map]
    exact Or.inl (Or.inr ⟨t, ht, rfl⟩)
  · simp
  · intro t ht
    simp [ht]

/-- Witness for C1: after cancelling on a concrete busy state, both the
active-scheduler list and the pending set are empty. -/
theorem cancelTransferTasks_ordered_witness :
    (FileService.cancelTransferTasks fsStateW).1.schedulers = []
      ∧ (FileService.cancelTransferTasks fsStateW).1.pendingTransferTasks = [] := by
  have h := cancelTransferTasks_ordered fsStateW
  exact ⟨h.2.2.2.2.2.2.2.1, h.2.2.2.2.2.2.2.2⟩

/-- C2: a `run()` invoked while the scheduler holds no task resolves
immediately — taking the branch that never calls `scheduler.start()`, and
touching no other scheduler — and in every case the File Service state in
which the `run()` promise resolves (immediately, or in the `onIdle`
callback) no longer contains the scheduler in the active-scheduler list. -/
theorem run_resolves_with_scheduler_removed (s s' : FSState) (sc : SchedState)
    (h1 : s.schedulers.countP (fun x => x.sid == sc.sid) ≤ 1)
    (h2 : s'.schedulers.countP (fun x => x.sid == sc.sid) ≤ 1) :
    (sc.size = 0 →
      TransferScheduler.run s sc = RunStep.immediate (FileService.removeScheduler s sc.sid)
        ∧ (∀ x ∈ (FileService.removeScheduler s sc.sid).schedulers, x ∈ s.schedulers))
    ∧ (∀ st, TransferScheduler.run s sc = RunStep.immediate st →
        ∀ x ∈ st.schedulers, (x.sid == sc.sid) = false)
    ∧ (∀ x ∈ (TransferScheduler.runResolveOnIdle s' sc.sid).schedulers,
        (x.sid == sc.sid) = false) := by
  refine ⟨?_, ?_, ?_⟩
  · intro hsz
    constructor
    · unfold TransferScheduler.run
      rw [if_pos (by omega)]
    · intro x hx
      rw [removeScheduler_schedulers] at hx
      exact List.mem_of_mem_eraseP hx
  · intro st hst x hx
    unfold TransferScheduler.run at hst
    by_cases hsz : sc.size ≤ 0
    · rw [if_pos hsz] at hst
      have hsteq : st = FileService.removeScheduler s sc.sid := (RunStep.immediate.inj hst).symm
      subst hsteq
      rw [removeScheduler_schedulers] at hx
      exact eraseP_pred_false _ _ h1 x hx
    · rw [if_neg hsz] at hst
      exact absurd hst (by simp)
  · intro x hx
    unfold TransferScheduler.runResolveOnIdle at hx
    rw [removeScheduler_schedulers] at hx
    exact eraseP_pred_false _ _ h2 x hx

/-- Witness for C2: on a concrete state, running an empty scheduler
resolves immediately with it removed, and an idle resolution leaves no
scheduler with its id. -/
theorem run_resolves_with_scheduler_removed_witness :
    TransferScheduler.run fsStateW ⟨2, [], [], 4, false⟩
        = RunStep.immediate (FileService.removeScheduler fsStateW 2)
      ∧ (∀ x ∈ (TransferScheduler.runResolveOnIdle fsStateW 1).schedulers,
          (x.sid == 1) = false) := by
  have h2 := run_resolves_with_scheduler_removed fsStateW fsStateW
    ⟨2, [], [], 4, false⟩ (by decide) (by decide)
  have h1 := run_resolves_with_scheduler_removed fsStateW fsStateW
    ⟨1, [], [], 4, false⟩ (by decide) (by decide)
  exact ⟨(h2.1 rfl).1, h1.2.2⟩

/-- C9: `isTransferring()` is true exactly while the active-scheduler list
is non-empty: creating a transfer scheduler makes it true before any task
is added or `run()` is invoked, and `add` calls leave it unchanged, so it
stays true between `add` calls; it is false once no scheduler is active. -/
theorem isTransferring_iff_active (s : FSState) (sid concurrency tid : Nat) :
    (FileService.isTransferring s = true ↔ s.schedulers ≠ [])
      ∧ FileService.isTransferring (FileService.createTransferScheduler s sid concurrency) = true
      ∧ FileService.isTransferring (TransferScheduler.add s sid tid)
          = FileService.isTransferring s := by
  refine ⟨?_, ?_, ?_⟩
  · unfold FileService.isTransferring
    constructor
    · intro h hnil
      rw [hnil] at h
      exact absurd h (by simp)
    · intro h
      simpa [bne_iff_ne, List.length_eq_zero] using h
  · unfold FileService.isTransferring FileService.createTransferScheduler
    simp
  · unfold FileService.isTransferring TransferScheduler.add
    simp

/-- Witness for C9: the concrete busy state reports a transfer in
progress. -/
theorem isTransferring_iff_active_witness :
    FileService.isTransferring fsStateW = true :=
  ((isTransferring_iff_active fsStateW 2 1 7).1).mpr (by decide)
